import Mathlib

/-!
Verification of the echo-mcp-server backend's hard core against its
natural-language specification.

The development shallowly embeds the Python sources:

* `app/services/external_api_service.py` — template engine
  (`TemplateProcessor`), secret vault (`APIKeyManager`) and service
  executor (`ExternalAPIService`);
* `app/routers/services.py` — the `execute_service` endpoint;
* `app/utils/websocket_manager.py` — the connection registry
  (`ConnectionManager`) and the chat protocol handler;
* `app/schemas/chat.py` and `app/routers/chat.py` — message validation and
  the mark-read operation.

Python strings are modelled as `List Char`, JSON-like values as the
closed inductive `Json`, Python dicts as insertion-ordered association
lists, and the network as an oracle mapping the attempt index to the
upstream outcome.  Scanning functions that advance by whole placeholder
matches are written with an explicit fuel argument (the input length
bounds the number of steps), which keeps every definition computable by
kernel reduction; fuel-irrelevance lemmas below recover the intended
equations.
-/

/-- Left brace character (written by code, not literally, to keep string
literals free of brace tokens). -/
def lbrace : Char := '\x7b'

/-- Right brace character. -/
def rbrace : Char := '\x7d'

/-- JSON-like values: the dynamic dictionaries the Python code traverses
(`dict` / `list` / `str` / `int` / `bool` / `None`).  Object fields are an
insertion-ordered association list, like a Python dict. -/
inductive Json where
  | null
  | bool (b : Bool)
  | num (n : Int)
  | str (s : List Char)
  | arr (xs : List Json)
  | obj (fields : List (List Char × Json))

/-- Python truthiness on the modelled JSON values (`bool(x)`): `None`,
`False`, `0`, `""`, `[]` and `\x7b\x7d` are falsy. -/
def pyTruthy : Json → Bool
  | .null => false
  | .bool b => b
  | .num n => decide (n ≠ 0)
  | .str s => !s.isEmpty
  | .arr xs => !xs.isEmpty
  | .obj fs => !fs.isEmpty

/-- Whitespace characters stripped by Python's `str.strip()` (ASCII range). -/
def isPyWs (c : Char) : Bool :=
  c == ' ' || c == '\t' || c == '\n' || c == '\r' || c == '\x0b' || c == '\x0c'

/-- Python `str.strip()`: drop leading and trailing whitespace. -/
def pyStrip (l : List Char) : List Char :=
  ((l.dropWhile isPyWs).reverse.dropWhile isPyWs).reverse

/-- Python `str.split('.')`: always returns at least one (possibly empty)
piece. -/
def splitDot : List Char → List (List Char)
  | [] => [[]]
  | c :: rest =>
    if c = '.' then [] :: splitDot rest
    else
      match splitDot rest with
      | s :: ss => (c :: s) :: ss
      | [] => [[c]]

/-- Dict lookup on an association list (first matching key, like a Python
dict, whose keys are unique). -/
def alookup : List (List Char × Json) → List Char → Option Json
  | [], _ => none
  | (k, v) :: rest, key => if k = key then some v else alookup rest key

/-- One step of `value = value[part]` in the replacer of
`TemplateProcessor.render_template`: dictionary lookup succeeds on objects
with the key present; a missing key (`KeyError`) or a non-dict value
(`TypeError`) is a resolution failure. -/
def resolvePath : Json → List (List Char) → Option Json
  | v, [] => some v
  | v, p :: ps =>
    match v with
    | .obj fs =>
      match alookup fs p with
      | some v' => resolvePath v' ps
      | none => none
    | _ => none

/-- Escaping inside Python `repr` of a string: backslash and single quote
are escaped (the model always uses single quotes; Python's quote-preference
rule for strings containing quotes is not needed by any claim). -/
def pyReprEscape : List Char → List Char
  | [] => []
  | c :: rest =>
    (if c = '\\' ∨ c = '\'' then ['\\', c] else [c]) ++ pyReprEscape rest

/-- Join pieces with a separator, as `", ".join(...)` does. -/
def joinSep (sep : List Char) : List (List Char) → List Char
  | [] => []
  | [x] => x
  | x :: rest => x ++ sep ++ joinSep sep rest

mutual
/-- Python `repr` of a modelled JSON value (used by `str` on containers). -/
def pyRepr : Json → List Char
  | .null => "None".toList
  | .bool true => "True".toList
  | .bool false => "False".toList
  | .num n => (toString n).toList
  | .str s => '\'' :: (pyReprEscape s ++ ['\''])
  | .arr xs => '[' :: (joinSep ", ".toList (pyReprList xs) ++ [']'])
  | .obj fs => lbrace :: (joinSep ", ".toList (pyReprFields fs) ++ [rbrace])

def pyReprList : List Json → List (List Char)
  | [] => []
  | x :: rest => pyRepr x :: pyReprList rest

def pyReprFields : List (List Char × Json) → List (List Char)
  | [] => []
  | (k, v) :: rest =>
    (('\'' :: (pyReprEscape k ++ ['\''])) ++ ": ".toList ++ pyRepr v) ::
      pyReprFields rest
end

/-- Python `str(value)`, as applied by the template replacer to a resolved
variable value. -/
def pyStr : Json → List Char
  | .str s => s
  | v => pyRepr v

/-- Leftmost-match attempt of the regex `\{\{([^}]+)\}\}` at the head of
the character list: two opening braces, a non-empty maximal run of
non-`rbrace` characters, then two closing braces.  Returns the group
(placeholder body) and the characters after the match. -/
def matchPlaceholder : List Char → Option (List Char × List Char)
  | c1 :: c2 :: rest =>
    if c1 = lbrace ∧ c2 = lbrace then
      let body := rest.takeWhile (fun c => !(c == rbrace))
      let after := rest.dropWhile (fun c => !(c == rbrace))
      if body = [] then none
      else
        match after with
        | a1 :: a2 :: rest2 =>
          if a1 = rbrace ∧ a2 = rbrace then some (body, rest2) else none
        | _ => none
    else none
  | _ => none

/-- The replacer of `render_template`: strip the placeholder body, split on
dots, walk the variables; on success return `str(value)`, on
`KeyError`/`TypeError` return the original matched text `match.group(0)`.
-/
def substFor (vars : Json) (body : List Char) : List Char :=
  match resolvePath vars (splitDot (pyStrip body)) with
  | some v => pyStr v
  | none => lbrace :: lbrace :: (body ++ rbrace :: rbrace :: [])

/-- Fuel-indexed worker for `re.sub` with the placeholder pattern: at each
position try a match (replacing it and resuming after it) or emit the
character and advance by one.  The fuel only needs to dominate the input
length. -/
def renderStrGo (vars : Json) : Nat → List Char → List Char
  | _, [] => []
  | 0, l => l
  | fuel + 1, l =>
    match matchPlaceholder l with
    | some (body, rest) => substFor vars body ++ renderStrGo vars fuel rest
    | none =>
      match l with
      | [] => []
      | c :: rest => c :: renderStrGo vars fuel rest

/-- String-level rendering: `re.sub(pattern, replacer, s)`. -/
def renderStr (vars : Json) (l : List Char) : List Char :=
  renderStrGo vars l.length l

/-- Fuel-indexed `re.findall` with the same pattern, collecting the group
of every non-overlapping leftmost match. -/
def findBodiesGo : Nat → List Char → List (List Char)
  | _, [] => []
  | 0, _ => []
  | fuel + 1, l =>
    match matchPlaceholder l with
    | some (body, rest) => body :: findBodiesGo fuel rest
    | none =>
      match l with
      | [] => []
      | _ :: rest => findBodiesGo fuel rest

/-- All placeholder bodies occurring in a string. -/
def findBodies (l : List Char) : List (List Char) :=
  findBodiesGo l.length l

/-- Root variable name of a placeholder body:
`match.strip().split('.')[0]`. -/
def rootName (body : List Char) : List Char :=
  (splitDot (pyStrip body)).headD []

mutual
/-- `TemplateProcessor.render_template`: recursively rebuild the tree,
substituting placeholders in every string leaf. -/
def render_template (vars : Json) : Json → Json
  | .str s => .str (renderStr vars s)
  | .arr xs => .arr (renderElems vars xs)
  | .obj fs => .obj (renderFields vars fs)
  | .null => .null
  | .bool b => .bool b
  | .num n => .num n

def renderElems (vars : Json) : List Json → List Json
  | [] => []
  | x :: rest => render_template vars x :: renderElems vars rest

def renderFields (vars : Json) :
    List (List Char × Json) → List (List Char × Json)
  | [] => []
  | (k, v) :: rest => (k, render_template vars v) :: renderFields vars rest
end

mutual
/-- `TemplateProcessor.extract_template_variables`: the root identifiers of
every placeholder in every string leaf (the Python code accumulates them in
a set; the model returns the list, and claims speak of membership). -/
def extract_template_variables : Json → List (List Char)
  | .str s => (findBodies s).map rootName
  | .arr xs => extractElems xs
  | .obj fs => extractFields fs
  | .null => []
  | .bool _ => []
  | .num _ => []

def extractElems : List Json → List (List Char)
  | [] => []
  | x :: rest => extract_template_variables x ++ extractElems rest

def extractFields : List (List Char × Json) → List (List Char)
  | [] => []
  | (_, v) :: rest => extract_template_variables v ++ extractFields rest
end

/-! ### Secret vault (`APIKeyManager`, wrapping the external Fernet cipher) -/

/-- Modelled from the spec: the symmetric authenticated cipher behind
`APIKeyManager` is the external `cryptography.fernet.Fernet` library, whose
code is not part of this repository.  It is modelled as an abstract pair of
total functions; decryption returns `none` where the library raises on
malformed or foreign ciphertext. -/
structure FernetCipher where
  enc : List Char → List Char
  dec : List Char → Option (List Char)

/-- Modelled from the spec: the documented contract of the external cipher
(symmetric authenticated encryption) — decryption inverts encryption, and
ciphertexts are non-empty tokens. -/
def FernetCipher.Sound (c : FernetCipher) : Prop :=
  (∀ m, c.dec (c.enc m) = some m) ∧ (∀ m, c.enc m ≠ [])

/-- `APIKeyManager.encrypt_api_key`: empty input short-circuits to the
empty string, otherwise the cipher encrypts. -/
def encrypt_api_key (c : FernetCipher) (api_key : List Char) : List Char :=
  if api_key = [] then [] else c.enc api_key

/-- `APIKeyManager.decrypt_api_key`: empty input short-circuits; a failing
decryption (the library raising on malformed input) is caught and turned
into the empty string. -/
def decrypt_api_key (c : FernetCipher) (encrypted_key : List Char) : List Char :=
  if encrypted_key = [] then []
  else
    match c.dec encrypted_key with
    | some m => m
    | none => []

/-! ### Service descriptors and the executor -/

/-- The `Service` row (`app/models/service.py`), restricted to the fields
the executor reads.  Optional text columns model `NULL` as the empty
string; optional JSON columns model `NULL` as `Json.null`. -/
structure Service where
  name : List Char
  type : List Char
  api_base_url : List Char
  api_endpoint : List Char
  http_method : List Char
  request_template : Json
  response_mapping : Json
  headers_template : Json
  encrypted_api_key : List Char
  api_key_header : List Char
  timeout_seconds : Nat
  retry_attempts : Nat
  is_active : Bool

/-- The `service.request_template or {}` idiom of the executor. -/
def reqTemplate (svc : Service) : Json :=
  if pyTruthy svc.request_template then svc.request_template else .obj []

/-- Modelled from the spec: `Service.full_api_url` is read by the executor
but defined nowhere in the sources; per the spec the endpoint is always
interpreted as rooted at `/` and appended to the base URL. -/
def fullApiUrl (svc : Service) : List Char :=
  svc.api_base_url ++
    (if svc.api_endpoint.head? = some '/' then svc.api_endpoint
     else '/' :: svc.api_endpoint)

/-- Uppercasing of the configured method (`service.http_method.upper()`). -/
def upperAscii (l : List Char) : List Char := l.map Char.toUpper

/-- The HTTP verbs `_make_api_call` dispatches on. -/
def supportedMethods : List (List Char) :=
  ["GET", "POST", "PUT", "PATCH", "DELETE"].map String.toList

/-- The missing-parameter computation of
`ExternalAPIService.validate_service_parameters`:
`required_vars - set(user_parameters.keys())` (deduplicated, as the Python
code works with sets). -/
def missingParams (svc : Service) (params : List (List Char × Json)) :
    List (List Char) :=
  ((extract_template_variables (reqTemplate svc)).filter
    (fun w => !(params.map Prod.fst).contains w)).dedup

/-- `validate_service_parameters`: valid iff nothing is missing; on failure
the structured error carries the missing names (Python formats them into
the message `"Missing required parameters: ..."`). -/
def validate_service_parameters (svc : Service)
    (params : List (List Char × Json)) : Bool × List (List Char) :=
  let missing := missingParams svc params
  if missing = [] then (true, []) else (false, missing)

/-- `_prepare_request_data`: render the request template with the user
parameters as variables. -/
def prepare_request_data (svc : Service)
    (params : List (List Char × Json)) : Json :=
  render_template (.obj params) (reqTemplate svc)

/-- `_prepare_headers`: start from `headers_template or {}`; when both an
encrypted key and a key header are configured and the key decrypts to a
non-empty secret, re-render the headers with `api_key` bound to the
plaintext. -/
def prepare_headers (c : FernetCipher) (svc : Service) : Json :=
  let headers := if pyTruthy svc.headers_template then svc.headers_template else .obj []
  if svc.encrypted_api_key ≠ [] ∧ svc.api_key_header ≠ [] then
    let api_key := decrypt_api_key c svc.encrypted_api_key
    if api_key ≠ [] then
      render_template (.obj [("api_key".toList, .str api_key)]) headers
    else headers
  else headers

/-- One outbound HTTP request as issued by `_make_api_call`: for `GET` the
rendered data goes to the query string (`params=`), for `POST`/`PUT`/`PATCH`
it is sent as a JSON body (`json=`), and for `DELETE` only the headers are
sent. -/
structure OutboundRequest where
  method : List Char
  url : List Char
  queryParams : Option Json
  jsonBody : Option Json
  headers : Json

/-- The per-method dispatch of `_make_api_call`; `none` models the
`ValueError` raised on an unsupported method. -/
def buildOutboundRequest (svc : Service) (data : Json) (headers : Json) :
    Option OutboundRequest :=
  let method := upperAscii svc.http_method
  if method = "GET".toList then
    some ⟨method, fullApiUrl svc, some data, none, headers⟩
  else if method = "POST".toList ∨ method = "PUT".toList ∨ method = "PATCH".toList then
    some ⟨method, fullApiUrl svc, none, some data, headers⟩
  else if method = "DELETE".toList then
    some ⟨method, fullApiUrl svc, none, none, headers⟩
  else none

/-- What one attempt of the upstream call produces: an HTTP response (with
parsed JSON body), or a raised `httpx.RequestError` — `timeout` marks the
`httpx.TimeoutException` subclass. -/
inductive AttemptOutcome where
  | response (status : Nat) (body : Json)
  | raised (timeout : Bool)

/-- The network as an oracle: the outcome of the attempt with the given
index (the outbound request itself is the same on every attempt). -/
abbrev Upstream := Nat → AttemptOutcome

/-- The retry loop of `_make_api_call`
(`for attempt in range(service.retry_attempts + 1)`), written structurally
on `remaining = retry_attempts - attempt`.  A response with status < 500 is
returned at once; a 5xx response or a raised transport error consumes a
backoff delay of `2 ** attempt` and retries while attempts remain; the
final attempt's response (any status) or error is propagated.  Returns the
final outcome, the number of upstream calls made, and the list of
inter-attempt delays. -/
def makeApiCallGo (up : Upstream) (attempt : Nat) :
    Nat → AttemptOutcome × Nat × List Nat
  | 0 =>
    match up attempt with
    | .response s b => (.response s b, 1, [])
    | .raised t => (.raised t, 1, [])
  | remaining + 1 =>
    match up attempt with
    | .response s b =>
      if s < 500 then (.response s b, 1, [])
      else
        let (r, n, ds) := makeApiCallGo up (attempt + 1) remaining
        (r, n + 1, 2 ^ attempt :: ds)
    | .raised _ =>
      let (r, n, ds) := makeApiCallGo up (attempt + 1) remaining
      (r, n + 1, 2 ^ attempt :: ds)

/-- `_make_api_call` started at attempt 0. -/
def make_api_call (up : Upstream) (retry_attempts : Nat) :
    AttemptOutcome × Nat × List Nat :=
  makeApiCallGo up 0 retry_attempts

/-- `_process_response`: apply the response mapping (when configured and
truthy) with the synthetic variable `response` bound to the parsed body. -/
def process_response (svc : Service) (body : Json) : Json :=
  if pyTruthy svc.response_mapping then
    render_template (.obj [("response".toList, body)]) svc.response_mapping
  else body

/-- The error kinds `execute_service_call` reports. -/
inductive CallError where
  | timeout
  | requestFailed
  | internalError
deriving DecidableEq

/-- The tuple `execute_service_call` returns (success, payload, status
code); the measured wall-clock time is not modelled. -/
structure ExecResult where
  success : Bool
  data : Option Json
  error : Option CallError
  status_code : Nat

/-- `ExternalAPIService.execute_service_call`, paired with the number of
upstream calls made: render the request and headers, dispatch with retry,
then classify — a returned response (any status) is a success with the
mapped body; a `TimeoutException` surviving the retries is the distinct
timeout error (HTTP 408); any other transport error is a generic request
failure (HTTP 500); an unsupported method (`ValueError`) is an internal
error with no upstream call. -/
def execute_service_call (c : FernetCipher) (svc : Service)
    (params : List (List Char × Json)) (up : Upstream) : ExecResult × Nat :=
  let requestData := prepare_request_data svc params
  let headers := prepare_headers c svc
  match buildOutboundRequest svc requestData headers with
  | none => (⟨false, none, some .internalError, 500⟩, 0)
  | some _ =>
    match make_api_call up svc.retry_attempts with
    | (.response s b, n, _) =>
      (⟨true, some (process_response svc b), none, s⟩, n)
    | (.raised true, n, _) => (⟨false, none, some .timeout, 408⟩, n)
    | (.raised false, n, _) => (⟨false, none, some .requestFailed, 500⟩, n)

/-- Outcome of the `execute_service` endpoint (`app/routers/services.py`):
either the 400 validation error naming the missing parameters, or the
result of the proxied call. -/
inductive ExecuteOutcome where
  | validationError (missing : List (List Char))
  | result (r : ExecResult)

/-- The `execute_service` endpoint after the service row is fetched:
validate the user parameters first and fail fast (no upstream call) with
the missing names; otherwise run `execute_service_call`.  Paired with the
number of upstream calls made. -/
def execute_service (c : FernetCipher) (svc : Service)
    (params : List (List Char × Json)) (up : Upstream) : ExecuteOutcome × Nat :=
  let v := validate_service_parameters svc params
  if v.1 then
    let (r, n) := execute_service_call c svc params up
    (.result r, n)
  else (.validationError v.2, 0)

/-! ### Connection registry (`ConnectionManager`) -/

/-- Association-list get with `Nat` keys (Python `dict.get`). -/
def alistGet {α : Type} : List (Nat × α) → Nat → Option α
  | [], _ => none
  | (k, v) :: rest, key => if k = key then some v else alistGet rest key

/-- Association-list set (`d[k] = v`), keeping insertion order. -/
def alistSet {α : Type} : List (Nat × α) → Nat → α → List (Nat × α)
  | [], key, v => [(key, v)]
  | (k, v') :: rest, key, v =>
    if k = key then (key, v) :: rest else (k, v') :: alistSet rest key v

/-- Association-list delete (`del d[k]`). -/
def alistRemove {α : Type} : List (Nat × α) → Nat → List (Nat × α)
  | [], _ => []
  | (k, v) :: rest, key =>
    if k = key then rest else (k, v) :: alistRemove rest key

/-- Python `list.remove(x)`: drop the first occurrence (the code only calls
it with an element of the list, where raising `ValueError` is impossible). -/
def removeFirst : List Nat → Nat → List Nat
  | [], _ => []
  | x :: rest, y => if x = y then rest else x :: removeFirst rest y

/-- The mutable registries of `ConnectionManager`; live WebSocket channels
are identified by numeric handles. -/
structure ConnState where
  active_connections : List (Nat × List Nat)
  connection_users : List (Nat × Nat)
  typing_indicators : List (Nat × List Nat)

/-- The registry at process start: no connections. -/
def emptyConnState : ConnState := ⟨[], [], []⟩

namespace ConnectionManager

/-- `ConnectionManager.connect`: append the channel to the user's
connection list (creating it on the first connection) and record the
channel's owner.  The accept/subscribe/confirmation I/O does not touch the
registry state. -/
def connect (st : ConnState) (user_id ws : Nat) : ConnState :=
  let conns := (alistGet st.active_connections user_id).getD []
  { st with
    active_connections := alistSet st.active_connections user_id (conns ++ [ws])
    connection_users := alistSet st.connection_users ws user_id }

/-- `ConnectionManager.disconnect`: look up the channel's owner; under
`if user_id:` (Python truthiness — a `None` **or zero** id skips all
cleanup) remove the channel from the owner's list, dropping the list, the
unsubscription and the owner's typing state when it empties, and finally
forget the channel's owner. -/
def disconnect (st : ConnState) (ws : Nat) : ConnState :=
  match alistGet st.connection_users ws with
  | none => st
  | some user_id =>
    if user_id = 0 then st
    else
      let st1 :=
        match alistGet st.active_connections user_id with
        | none => st
        | some conns =>
          let conns' := removeFirst conns ws
          if conns' = [] then
            { st with
              active_connections := alistRemove st.active_connections user_id
              typing_indicators := alistRemove st.typing_indicators user_id }
          else
            { st with
              active_connections := alistSet st.active_connections user_id conns' }
      { st1 with connection_users := alistRemove st1.connection_users ws }

/-- `ConnectionManager.is_user_online`:
`user_id in self.active_connections`. -/
def is_user_online (st : ConnState) (user_id : Nat) : Bool :=
  (alistGet st.active_connections user_id).isSome

/-- `ConnectionManager.get_user_connection_count`:
`len(self.active_connections.get(user_id, []))`. -/
def get_user_connection_count (st : ConnState) (user_id : Nat) : Nat :=
  ((alistGet st.active_connections user_id).getD []).length

end ConnectionManager

/-! ### Chat message validation and persistence paths -/

/-- A persisted `ChatMessage` row (`app/models/chat.py`): sender, receiver,
content, server-assigned timestamp, read flag. -/
structure ChatMessageRec where
  id : Nat
  sender_id : Nat
  receiver_id : Nat
  content : List Char
  timestamp : Nat
  is_read : Bool
deriving DecidableEq

/-- The `MessageSend` schema (`app/schemas/chat.py`): `content` must be
1–2000 characters, not whitespace-only, and the validator returns the
stripped content — which is what the REST `send_message` endpoint persists.
`none` models the pydantic validation error. -/
def messageSendContent (content : List Char) : Option (List Char) :=
  if 1 ≤ content.length ∧ content.length ≤ 2000 then
    if pyStrip content = [] then none else some (pyStrip content)
  else none

/-- Content persisted by `ChatWebSocketHandler._handle_send_message` for a
frame with the given `receiver_id`/`content`: the handler only rejects a
falsy receiver id or falsy (empty) content and an unknown/inactive receiver
(`receiverFound`), then persists `content.strip()` with no length or
blankness check. -/
def wsSendMessageContent (receiverFound : Bool) (receiver_id : Nat)
    (content : List Char) : Option (List Char) :=
  if receiver_id = 0 ∨ content = [] then none
  else if receiverFound then some (pyStrip content)
  else none

/-- The spec's `ChatMessage` content invariant: 1–2000 characters and
non-blank after trimming. -/
def chatContentValid (content : List Char) : Bool :=
  decide (1 ≤ content.length) && decide (content.length ≤ 2000) &&
    !(pyStrip content).isEmpty

/-- The row filter of `mark_messages_as_read` (`app/routers/chat.py`):
`id in message_ids AND receiver_id == current_user.id AND is_read == False`.
-/
def markCond (user_id : Nat) (ids : List Nat) (m : ChatMessageRec) : Bool :=
  ids.contains m.id && (m.receiver_id == user_id) && !m.is_read

/-- `mark_messages_as_read`: fetch the rows matching the filter, set
`is_read = True` on each, and report how many were marked.  The database is
modelled as the list of message rows. -/
def mark_messages_as_read (user_id : Nat) (ids : List Nat)
    (db : List ChatMessageRec) : List ChatMessageRec × Nat :=
  (db.map (fun m => if markCond user_id ids m then { m with is_read := true } else m),
   (db.filter (markCond user_id ids)).length)

/-! ### Predicates used by the template-engine properties -/

/-- A string with no brace characters at all. -/
def braceFree (l : List Char) : Bool :=
  l.all (fun c => !(c == lbrace) && !(c == rbrace))

/-- Whether a placeholder match starts at some position of the string,
i.e. whether the rendered text still contains a substring the engine would
treat as a placeholder. -/
def hasPlaceholder : List Char → Bool
  | [] => false
  | c :: rest => (matchPlaceholder (c :: rest)).isSome || hasPlaceholder rest

mutual
/-- Whether any string leaf of a tree still contains a placeholder. -/
def hasPlaceholderJson : Json → Bool
  | .str s => hasPlaceholder s
  | .arr xs => hasPlaceholderElems xs
  | .obj fs => hasPlaceholderFields fs
  | .null => false
  | .bool _ => false
  | .num _ => false

def hasPlaceholderElems : List Json → Bool
  | [] => false
  | x :: rest => hasPlaceholderJson x || hasPlaceholderElems rest

def hasPlaceholderFields : List (List Char × Json) → Bool
  | [] => false
  | (_, v) :: rest => hasPlaceholderJson v || hasPlaceholderFields rest
end

/-- Fuel-indexed scan mirroring `renderStrGo`: the string decomposes into
brace-free literal characters and complete placeholders, each of whose
bodies fully resolves in `vars` to a value whose `str()` form is
brace-free. -/
def cleanStrGo (vars : Json) : Nat → List Char → Bool
  | _, [] => true
  | 0, _ => false
  | fuel + 1, l =>
    match matchPlaceholder l with
    | some (body, rest) =>
      match resolvePath vars (splitDot (pyStrip body)) with
      | some v => braceFree (pyStr v) && cleanStrGo vars fuel rest
      | none => false
    | none =>
      match l with
      | [] => true
      | c :: rest => (!(c == lbrace) && !(c == rbrace)) && cleanStrGo vars fuel rest

/-- String-level cleanliness (see `cleanStrGo`). -/
def cleanStr (vars : Json) (l : List Char) : Bool :=
  cleanStrGo vars l.length l

mutual
/-- Tree-level cleanliness: every string leaf is clean for `vars`. -/
def cleanJson (vars : Json) : Json → Bool
  | .str s => cleanStr vars s
  | .arr xs => cleanElems vars xs
  | .obj fs => cleanFields vars fs
  | .null => true
  | .bool _ => true
  | .num _ => true

def cleanElems (vars : Json) : List Json → Bool
  | [] => true
  | x :: rest => cleanJson vars x && cleanElems vars rest

def cleanFields (vars : Json) : List (List Char × Json) → Bool
  | [] => true
  | (_, v) :: rest => cleanJson vars v && cleanFields vars rest
end

/-- Whether a root variable name has an entry in the variable map. -/
def hasRootEntry (vars : Json) (r : List Char) : Bool :=
  match vars with
  | .obj fs => (alookup fs r).isSome
  | _ => false

/-- The hypothesis of the spec's render property as literally stated: every
root-level placeholder identifier of the template has a matching entry in
the variable map. -/
def rootsCovered (vars t : Json) : Bool :=
  (extract_template_variables t).all (hasRootEntry vars)

/-! ### Concrete instances used in counterexamples and witnesses -/

/-- A demonstration cipher satisfying the Fernet contract: tag the message
with a leading marker; decryption rejects inputs without the marker. -/
def demoCipher : FernetCipher :=
  ⟨fun m => 'F' :: m,
   fun l =>
     match l with
     | c :: m => if c = 'F' then some m else none
     | [] => none⟩

/-- A benign service configuration reused (with field updates) by the
concrete instances below. -/
def baseService : Service :=
  { name := "demo".toList
    type := "utility".toList
    api_base_url := "https://api.example.com".toList
    api_endpoint := "/run".toList
    http_method := "POST".toList
    request_template := .obj []
    response_mapping := .null
    headers_template := .null
    encrypted_api_key := []
    api_key_header := []
    timeout_seconds := 30
    retry_attempts := 3
    is_active := true }

/-- The spec's ride-request example: a descriptor requiring
`pickup_lat` and `pickup_lng`. -/
def svcRide : Service :=
  { baseService with
    request_template :=
      .obj [("pickup_lat".toList, .str "\x7b\x7bpickup_lat\x7d\x7d".toList),
            ("pickup_lng".toList, .str "\x7b\x7bpickup_lng\x7d\x7d".toList)] }

/-- The spec's retry example: `retry_attempts = 2`. -/
def svcRetry : Service := { baseService with retry_attempts := 2 }

/-- An upstream that answers 500 twice and then 200. -/
def upFlaky : Upstream :=
  fun i => if i < 2 then .response 500 .null else .response 200 (.obj [])

/-- An upstream whose every attempt times out. -/
def upTimeout : Upstream := fun _ => .raised true

/-- A descriptor configured with the DELETE verb. -/
def svcDelete : Service := { baseService with http_method := "DELETE".toList }

/-- A descriptor whose only placeholder lives in the headers template. -/
def svcHeaderOnly : Service :=
  { baseService with
    headers_template :=
      .obj [("X-Session".toList, .str "\x7b\x7bsession_token\x7d\x7d".toList)] }

/-- Template whose placeholder uses a dotted path under root `a`. -/
def tmplDotted : Json := .obj [("x".toList, .str "\x7b\x7ba.b\x7d\x7d".toList)]

/-- Variable map binding root `a` to a number (so `a.b` cannot resolve). -/
def varsNum : Json := .obj [("a".toList, .num 5)]

/-- A clean greeting template. -/
def tmplGreet : Json :=
  .obj [("greeting".toList, .str "hello \x7b\x7bname\x7d\x7d".toList)]

/-- Variables for the greeting template. -/
def varsGreet : Json := .obj [("name".toList, .str "Ada".toList)]

theorem matchPlaceholder_none_of_head {c : Char} {cs : List Char}
    (h : c ≠ lbrace) : matchPlaceholder (c :: cs) = none := by
  cases cs with
  | nil => rfl
  | cons c2 rest => simp [matchPlaceholder, h]

theorem matchPlaceholder_some_length {l body rest : List Char}
    (h : matchPlaceholder l = some (body, rest)) :
    body ≠ [] ∧ rest.length + 5 ≤ l.length := by
  match l with
  | [] => simp [matchPlaceholder] at h
  | [c] => simp [matchPlaceholder] at h
  | c1 :: c2 :: rest0 =>
    rw [matchPlaceholder] at h
    split at h
    · dsimp only at h
      split at h
      · exact absurd h (by simp)
      · split at h
        · split at h
          · rename_i hbr hne after a1 a2 rest2 hdw hrr
            have hpair := Option.some.inj h
            have hb : rest0.takeWhile (fun c => !(c == rbrace)) = body :=
              congrArg Prod.fst hpair
            have hr : rest2 = rest := congrArg Prod.snd hpair
            have hsplit :=
              List.takeWhile_append_dropWhile (fun c => !(c == rbrace)) rest0
            rw [hdw] at hsplit
            have hlen := congrArg List.length hsplit
            have hpos : 0 < (rest0.takeWhile (fun c => !(c == rbrace))).length :=
              List.length_pos.mpr hne
            rw [hb] at hpos
            simp at hlen
            rw [hb, hr] at hlen
            refine ⟨hb ▸ hne, ?_⟩
            simp [List.length_cons]
            omega
          · exact absurd h (by simp)
        · exact absurd h (by simp)
    · exact absurd h (by simp)

theorem renderStrGo_fuel (vars : Json) :
    ∀ fuel fuel' l, l.length ≤ fuel → l.length ≤ fuel' →
      renderStrGo vars fuel l = renderStrGo vars fuel' l := by
  intro fuel
  induction fuel with
  | zero =>
    intro fuel' l h _
    have : l = [] := List.eq_nil_of_length_eq_zero (Nat.le_zero.mp h)
    subst this
    cases fuel' <;> rfl
  | succ f ih =>
    intro fuel' l h h'
    cases l with
    | nil => cases fuel' <;> rfl
    | cons c cs =>
      cases fuel' with
      | zero => simp at h'
      | succ f' =>
        show (match matchPlaceholder (c :: cs) with
              | some (body, rest) => substFor vars body ++ renderStrGo vars f rest
              | none => c :: renderStrGo vars f cs) =
             (match matchPlaceholder (c :: cs) with
              | some (body, rest) => substFor vars body ++ renderStrGo vars f' rest
              | none => c :: renderStrGo vars f' cs)
        cases hm : matchPlaceholder (c :: cs) with
        | some p =>
          obtain ⟨body, rest⟩ := p
          have hlen := (matchPlaceholder_some_length hm).2
          simp only [List.length_cons] at h h' hlen
          exact congrArg (substFor vars body ++ ·)
            (ih f' rest (by omega) (by omega))
        | none =>
          simp only [List.length_cons] at h h'
          exact congrArg (c :: ·) (ih f' cs (by omega) (by omega))

theorem renderStr_match {l body rest : List Char} (vars : Json)
    (h : matchPlaceholder l = some (body, rest)) :
    renderStr vars l = substFor vars body ++ renderStr vars rest := by
  have hlen := (matchPlaceholder_some_length h).2
  cases l with
  | nil => simp at hlen
  | cons c cs =>
    show renderStrGo vars (c :: cs).length (c :: cs) = _
    rw [List.length_cons]
    show (match matchPlaceholder (c :: cs) with
          | some (body, rest) => substFor vars body ++ renderStrGo vars cs.length rest
          | none => c :: renderStrGo vars cs.length cs) = _
    rw [h]
    simp only [List.length_cons] at hlen
    exact congrArg (substFor vars body ++ ·)
      (renderStrGo_fuel vars cs.length rest.length rest (by omega) (by omega))

theorem renderStr_no_match {c : Char} {cs : List Char} (vars : Json)
    (h : matchPlaceholder (c :: cs) = none) :
    renderStr vars (c :: cs) = c :: renderStr vars cs := by
  show renderStrGo vars (c :: cs).length (c :: cs) = _
  rw [List.length_cons]
  show (match matchPlaceholder (c :: cs) with
        | some (body, rest) => substFor vars body ++ renderStrGo vars cs.length rest
        | none => c :: renderStrGo vars cs.length cs) = _
  rw [h]
  rfl

theorem braceFree_append {a b : List Char} :
    braceFree (a ++ b) = (braceFree a && braceFree b) := by
  simp [braceFree, List.all_append]

theorem hasPlaceholder_of_braceFree {l : List Char}
    (h : braceFree l = true) : hasPlaceholder l = false := by
  induction l with
  | nil => rfl
  | cons c cs ih =>
    simp only [braceFree, List.all_cons, Bool.and_eq_true] at h
    obtain ⟨⟨hc, _⟩, hcs⟩ := h
    have hc' : c ≠ lbrace := by
      intro hEq; rw [hEq] at hc; simp at hc
    show ((matchPlaceholder (c :: cs)).isSome || hasPlaceholder cs) = false
    rw [matchPlaceholder_none_of_head hc', ih hcs]
    rfl

theorem cleanStrGo_render (vars : Json) :
    ∀ fuel l, l.length ≤ fuel → cleanStrGo vars fuel l = true →
      braceFree (renderStrGo vars fuel l) = true := by
  intro fuel
  induction fuel with
  | zero =>
    intro l h _
    have : l = [] := List.eq_nil_of_length_eq_zero (Nat.le_zero.mp h)
    subst this
    rfl
  | succ f ih =>
    intro l h hc
    cases l with
    | nil => rfl
    | cons c cs =>
      have hcstep : cleanStrGo vars (f + 1) (c :: cs) =
          (match matchPlaceholder (c :: cs) with
           | some (body, rest) =>
             match resolvePath vars (splitDot (pyStrip body)) with
             | some v => braceFree (pyStr v) && cleanStrGo vars f rest
             | none => false
           | none => (!(c == lbrace) && !(c == rbrace)) && cleanStrGo vars f cs) := rfl
      have hrstep : renderStrGo vars (f + 1) (c :: cs) =
          (match matchPlaceholder (c :: cs) with
           | some (body, rest) => substFor vars body ++ renderStrGo vars f rest
           | none => c :: renderStrGo vars f cs) := rfl
      rw [hcstep] at hc
      rw [hrstep]
      cases hm : matchPlaceholder (c :: cs) with
      | some p =>
        obtain ⟨body, rest⟩ := p
        rw [hm] at hc
        dsimp only at hc ⊢
        have hlen := (matchPlaceholder_some_length hm).2
        simp only [List.length_cons] at h hlen
        cases hres : resolvePath vars (splitDot (pyStrip body)) with
        | none => rw [hres] at hc; exact absurd hc (by simp)
        | some v =>
          rw [hres] at hc
          simp only [Bool.and_eq_true] at hc
          obtain ⟨hv, hrest⟩ := hc
          rw [braceFree_append]
          have hsub : substFor vars body = pyStr v := by
            simp [substFor, hres]
          rw [hsub, hv, ih rest (by omega) hrest]
          rfl
      | none =>
        rw [hm] at hc
        dsimp only at hc ⊢
        simp only [Bool.and_eq_true] at hc
        obtain ⟨hchar, hrest⟩ := hc
        simp only [List.length_cons] at h
        show braceFree (c :: renderStrGo vars f cs) = true
        simp only [braceFree, List.all_cons, Bool.and_eq_true]
        refine ⟨hchar, ?_⟩
        have := ih cs (by omega) hrest
        simpa [braceFree] using this

theorem cleanStr_renderStr {vars : Json} {l : List Char}
    (h : cleanStr vars l = true) : braceFree (renderStr vars l) = true :=
  cleanStrGo_render vars l.length l (Nat.le_refl _) h

mutual
theorem cleanJson_render (vars : Json) :
    ∀ t, cleanJson vars t = true →
      hasPlaceholderJson (render_template vars t) = false
  | .null, _ => rfl
  | .bool _, _ => rfl
  | .num _, _ => rfl
  | .str _s, h =>
    hasPlaceholder_of_braceFree (cleanStr_renderStr h)
  | .arr xs, h => cleanElems_render vars xs h
  | .obj fs, h => cleanFields_render vars fs h

theorem cleanElems_render (vars : Json) :
    ∀ xs, cleanElems vars xs = true →
      hasPlaceholderElems (renderElems vars xs) = false
  | [], _ => rfl
  | x :: rest, h => by
    simp only [cleanElems, Bool.and_eq_true] at h
    show (hasPlaceholderJson (render_template vars x) ||
      hasPlaceholderElems (renderElems vars rest)) = false
    rw [cleanJson_render vars x h.1, cleanElems_render vars rest h.2]
    rfl

theorem cleanFields_render (vars : Json) :
    ∀ fs, cleanFields vars fs = true →
      hasPlaceholderFields (renderFields vars fs) = false
  | [], _ => rfl
  | (_, v) :: rest, h => by
    simp only [cleanFields, Bool.and_eq_true] at h
    show (hasPlaceholderJson (render_template vars v) ||
      hasPlaceholderFields (renderFields vars rest)) = false
    rw [cleanJson_render vars v h.1, cleanFields_render vars rest h.2]
    rfl
end

theorem takeWhile_append_of_all {α : Type} (p : α → Bool) {l1 : List α}
    (l2 : List α) (h : ∀ x ∈ l1, p x = true) :
    (l1 ++ l2).takeWhile p = l1 ++ l2.takeWhile p := by
  induction l1 with
  | nil => simp
  | cons a t ih =>
    have ha := h a (by simp)
    simp [List.takeWhile_cons, ha, ih (fun x hx => h x (by simp [hx]))]

theorem dropWhile_append_of_all {α : Type} (p : α → Bool) {l1 : List α}
    (l2 : List α) (h : ∀ x ∈ l1, p x = true) :
    (l1 ++ l2).dropWhile p = l2.dropWhile p := by
  induction l1 with
  | nil => simp
  | cons a t ih =>
    have ha := h a (by simp)
    simp [List.dropWhile_cons, ha, ih (fun x hx => h x (by simp [hx]))]

theorem matchPlaceholder_placeholder {body : List Char} (rest : List Char)
    (hne : body ≠ []) (hnb : ∀ c ∈ body, (c == rbrace) = false) :
    matchPlaceholder (lbrace :: lbrace :: (body ++ rbrace :: rbrace :: rest)) =
      some (body, rest) := by
  rw [matchPlaceholder, if_pos ⟨rfl, rfl⟩]
  dsimp only
  have htw : (body ++ rbrace :: rbrace :: rest).takeWhile (fun c => !(c == rbrace))
      = body := by
    rw [takeWhile_append_of_all _ _ (fun x hx => by simp [hnb x hx])]
    simp [List.takeWhile_cons]
  have hdw : (body ++ rbrace :: rbrace :: rest).dropWhile (fun c => !(c == rbrace))
      = rbrace :: rbrace :: rest := by
    rw [dropWhile_append_of_all _ _ (fun x hx => by simp [hnb x hx])]
    simp [List.dropWhile_cons]
  rw [htw, hdw, if_neg hne]
  simp

theorem substFor_fail {vars : Json} {body : List Char}
    (h : resolvePath vars (splitDot (pyStrip body)) = none) :
    substFor vars body = lbrace :: lbrace :: (body ++ rbrace :: rbrace :: []) := by
  simp [substFor, h]

theorem renderStr_unresolved {vars : Json} {body rest : List Char}
    (hne : body ≠ []) (hnb : ∀ c ∈ body, (c == rbrace) = false)
    (hfail : resolvePath vars (splitDot (pyStrip body)) = none) :
    renderStr vars (lbrace :: lbrace :: (body ++ rbrace :: rbrace :: rest)) =
      lbrace :: lbrace :: (body ++ rbrace :: rbrace :: renderStr vars rest) := by
  rw [renderStr_match vars (matchPlaceholder_placeholder rest hne hnb),
    substFor_fail hfail]
  simp

theorem makeApiCallGo_count_pos (up : Upstream) :
    ∀ remaining attempt, 1 ≤ (makeApiCallGo up attempt remaining).2.1 := by
  intro remaining
  induction remaining with
  | zero => intro attempt; cases h : up attempt <;> simp [makeApiCallGo, h]
  | succ r ih =>
    intro attempt
    rcases hx : makeApiCallGo up (attempt + 1) r with ⟨res, n, ds⟩
    cases h : up attempt with
    | response s b =>
      by_cases hs : s < 500
      · simp [makeApiCallGo, h, hs]
      · simp [makeApiCallGo, h, hs, hx]
    | raised t => simp [makeApiCallGo, h, hx]

theorem makeApiCallGo_count_le (up : Upstream) :
    ∀ remaining attempt, (makeApiCallGo up attempt remaining).2.1 ≤ remaining + 1 := by
  intro remaining
  induction remaining with
  | zero => intro attempt; cases h : up attempt <;> simp [makeApiCallGo, h]
  | succ r ih =>
    intro attempt
    rcases hx : makeApiCallGo up (attempt + 1) r with ⟨res, n, ds⟩
    have hn : n ≤ r + 1 := by
      have := ih (attempt + 1)
      rw [hx] at this
      simpa using this
    cases h : up attempt with
    | response s b =>
      by_cases hs : s < 500
      · simp [makeApiCallGo, h, hs]
      · simp [makeApiCallGo, h, hs, hx]; omega
    | raised t => simp [makeApiCallGo, h, hx]; omega

theorem makeApiCallGo_success (up : Upstream) {attempt : Nat} {s : Nat} {b : Json}
    (h : up attempt = .response s b) (hs : s < 500) :
    ∀ remaining, makeApiCallGo up attempt remaining = (.response s b, 1, []) := by
  intro remaining
  cases remaining with
  | zero => simp [makeApiCallGo, h]
  | succ r => simp [makeApiCallGo, h, hs]

theorem makeApiCallGo_all_raised (up : Upstream) (t : Bool)
    (hup : ∀ i, up i = .raised t) :
    ∀ remaining attempt,
      (makeApiCallGo up attempt remaining).1 = .raised t ∧
        (makeApiCallGo up attempt remaining).2.1 = remaining + 1 := by
  intro remaining
  induction remaining with
  | zero => intro attempt; simp [makeApiCallGo, hup attempt]
  | succ r ih =>
    intro attempt
    rcases hx : makeApiCallGo up (attempt + 1) r with ⟨res, n, ds⟩
    have := ih (attempt + 1)
    rw [hx] at this
    simp at this
    simp [makeApiCallGo, hup attempt, hx, this.1, this.2]

theorem makeApiCallGo_delays (up : Upstream) :
    ∀ remaining attempt,
      (makeApiCallGo up attempt remaining).2.2 =
        (List.range ((makeApiCallGo up attempt remaining).2.1 - 1)).map
          (fun i => 2 ^ (attempt + i)) := by
  intro remaining
  induction remaining with
  | zero => intro attempt; cases h : up attempt <;> simp [makeApiCallGo, h]
  | succ r ih =>
    intro attempt
    rcases hx : makeApiCallGo up (attempt + 1) r with ⟨res, n, ds⟩
    have hds : ds = (List.range (n - 1)).map (fun i => 2 ^ (attempt + 1 + i)) := by
      have := ih (attempt + 1)
      rw [hx] at this
      simpa using this
    have hn : 1 ≤ n := by
      have := makeApiCallGo_count_pos up r (attempt + 1)
      rw [hx] at this
      simpa using this
    have key : 2 ^ attempt :: ds =
        (List.range (n + 1 - 1)).map (fun i => 2 ^ (attempt + i)) := by
      obtain ⟨m, hm⟩ : ∃ m, n = m + 1 := ⟨n - 1, by omega⟩
      subst hm
      rw [hds]
      simp only [Nat.add_sub_cancel, List.range_succ_eq_map, List.map_cons,
        List.map_map, Nat.add_zero, Function.comp]
      congr 1
      apply List.map_congr_left
      intro i _
      congr 1
      omega
    cases h : up attempt with
    | response s b =>
      by_cases hs : s < 500
      · simp [makeApiCallGo, h, hs]
      · simp only [makeApiCallGo, h, hs, hx]
        simpa using key
    | raised t =>
      simp only [makeApiCallGo, h, hx]
      simpa using key

theorem length_dropWhile_le' {α : Type} (p : α → Bool) (l : List α) :
    (l.dropWhile p).length ≤ l.length := by
  induction l with
  | nil => simp
  | cons a t ih =>
    by_cases h : p a
    · simp [List.dropWhile_cons, h]; omega
    · simp [List.dropWhile_cons, h]

theorem dropWhile_head_not {α : Type} {p : α → Bool} {l t : List α} {c : α}
    (h : l.dropWhile p = c :: t) : p c = false := by
  induction l with
  | nil => simp at h
  | cons a rest ih =>
    by_cases ha : p a
    · rw [List.dropWhile_cons_of_pos ha] at h; exact ih h
    · rw [List.dropWhile_cons_of_neg ha] at h
      injection h with h1 _
      rw [← h1]
      exact Bool.of_not_eq_true ha

theorem pyStrip_length_le (l : List Char) : (pyStrip l).length ≤ l.length := by
  unfold pyStrip
  calc ((l.dropWhile isPyWs).reverse.dropWhile isPyWs).reverse.length
      = ((l.dropWhile isPyWs).reverse.dropWhile isPyWs).length := by simp
    _ ≤ (l.dropWhile isPyWs).reverse.length := length_dropWhile_le' _ _
    _ = (l.dropWhile isPyWs).length := by simp
    _ ≤ l.length := length_dropWhile_le' _ _

theorem pyStrip_idem (l : List Char) : pyStrip (pyStrip l) = pyStrip l := by
  have main : ∀ (L : List Char), (∀ c t, L = c :: t → isPyWs c = false) →
      pyStrip ((L.reverse.dropWhile isPyWs).reverse) =
        (L.reverse.dropWhile isPyWs).reverse := by
    intro L hhead
    have hsplit := List.takeWhile_append_dropWhile isPyWs L.reverse
    have hS := congrArg List.reverse hsplit
    simp only [List.reverse_append, List.reverse_reverse] at hS
    have hm : (L.reverse.dropWhile isPyWs).reverse.dropWhile isPyWs
        = (L.reverse.dropWhile isPyWs).reverse := by
      cases hdr : (L.reverse.dropWhile isPyWs).reverse with
      | nil => simp
      | cons c t =>
        have hLc : L = c :: (t ++ (L.reverse.takeWhile isPyWs).reverse) := by
          conv_lhs => rw [← hS, hdr]
          rw [List.cons_append]
        have hc : isPyWs c = false := hhead c _ hLc
        rw [List.dropWhile_cons_of_neg (by simp [hc])]
    unfold pyStrip
    rw [hm]
    simp only [List.reverse_reverse]
    rw [List.dropWhile_idempotent]
  exact main (l.dropWhile isPyWs) (fun c t h => dropWhile_head_not h)

/-! ### Claim theorems -/

/-- C5: on any cipher satisfying the Fernet contract, `decrypt_api_key`
inverts `encrypt_api_key` on every non-empty string, and on malformed or
foreign ciphertext (rejected by the cipher) it returns the empty string —
both functions are total, so no exception can escape. -/
theorem vault_roundtrip_and_graceful_failure (c : FernetCipher)
    (hs : c.Sound) :
    (∀ x, x ≠ [] → decrypt_api_key c (encrypt_api_key c x) = x) ∧
      (∀ g, c.dec g = none → decrypt_api_key c g = []) := by
  constructor
  · intro x hx
    rw [encrypt_api_key, if_neg hx, decrypt_api_key, if_neg (hs.2 x), hs.1 x]
  · intro g hg
    by_cases h : g = []
    · simp [decrypt_api_key, h]
    · rw [decrypt_api_key, if_neg h, hg]

/-- Witness for C5 at the demonstration cipher: the round trip on `"key"`
and the graceful failure on the foreign input `"junk"`. -/
theorem vault_roundtrip_witness :
    decrypt_api_key demoCipher (encrypt_api_key demoCipher "key".toList) =
        "key".toList ∧
      decrypt_api_key demoCipher "junk".toList = [] := by
  have hs : demoCipher.Sound := ⟨fun m => rfl, fun m => by simp [demoCipher]⟩
  exact ⟨(vault_roundtrip_and_graceful_failure demoCipher hs).1 "key".toList
      (by simp),
    (vault_roundtrip_and_graceful_failure demoCipher hs).2 "junk".toList rfl⟩

/-- C4: rendering is total (no exception), and a placeholder whose dotted
path fails to resolve is left verbatim in the output while rendering
continues — both with the rest of the same string and with the remaining
fields of the surrounding object. -/
theorem render_unresolved_placeholder_verbatim (vars : Json)
    (body rest : List Char) (k : List Char) (fs : List (List Char × Json))
    (hne : body ≠ []) (hnb : ∀ ch ∈ body, (ch == rbrace) = false)
    (hfail : resolvePath vars (splitDot (pyStrip body)) = none) :
    renderStr vars (lbrace :: lbrace :: (body ++ rbrace :: rbrace :: rest)) =
        lbrace :: lbrace :: (body ++ rbrace :: rbrace :: renderStr vars rest) ∧
      render_template vars
          (.obj ((k, .str (lbrace :: lbrace :: (body ++ rbrace :: rbrace :: rest))) :: fs)) =
        .obj ((k, .str (lbrace :: lbrace :: (body ++ rbrace :: rbrace :: renderStr vars rest)))
          :: renderFields vars fs) := by
  have h1 := @renderStr_unresolved vars body rest hne hnb hfail
  refine ⟨h1, ?_⟩
  show Json.obj
      ((k, Json.str (renderStr vars (lbrace :: lbrace :: (body ++ rbrace :: rbrace :: rest))))
        :: renderFields vars fs) = _
  rw [h1]

/-- C4 witness: the unresolved placeholder for `missing` survives verbatim
in an empty-variables rendering. -/
theorem render_unresolved_witness :
    renderStr (.obj []) (lbrace :: lbrace :: ("missing".toList ++ rbrace :: rbrace :: [])) =
        lbrace :: lbrace :: ("missing".toList ++ rbrace :: rbrace :: renderStr (.obj []) []) ∧
      render_template (.obj [])
          (.obj [("note".toList, .str (lbrace :: lbrace :: ("missing".toList ++ rbrace :: rbrace :: [])))]) =
        .obj [("note".toList, .str (lbrace :: lbrace :: ("missing".toList ++ rbrace :: rbrace :: renderStr (.obj []) [])))] :=
  render_unresolved_placeholder_verbatim (.obj []) "missing".toList []
    "note".toList [] (by decide) (by decide) rfl

/-- C3 counterexample: for the template `"\x7b\x7ba.b\x7d\x7d"` and the
variable map binding the root `a` to the number 5, every root-level
placeholder identifier is covered by the map, yet the rendered result still
contains a placeholder (the dotted path `a.b` fails mid-walk and is left
verbatim), refuting the claim as stated. -/
theorem render_root_coverage_insufficient :
    rootsCovered varsNum tmplDotted = true ∧
      hasPlaceholderJson (render_template varsNum tmplDotted) = true :=
  ⟨by decide, by decide⟩

/-- C3 (amended): when every string leaf of the template decomposes into
brace-free literal text and complete placeholders, and every placeholder's
trimmed dotted path fully resolves in the variable map to a value whose
string form is brace-free, the rendered tree contains no placeholder. -/
theorem render_clean_templates_no_placeholders (vars t : Json)
    (h : cleanJson vars t = true) :
    hasPlaceholderJson (render_template vars t) = false :=
  cleanJson_render vars t h

/-- C3 witness: the greeting template is clean for its variable map and
renders without placeholders. -/
theorem render_clean_witness :
    cleanJson varsGreet tmplGreet = true ∧
      hasPlaceholderJson (render_template varsGreet tmplGreet) = false :=
  ⟨by decide, render_clean_templates_no_placeholders varsGreet tmplGreet (by decide)⟩

theorem buildOutboundRequest_isSome_of_supported (svc : Service)
    (data headers : Json)
    (h : upperAscii svc.http_method ∈ supportedMethods) :
    ∃ r, buildOutboundRequest svc data headers = some r := by
  simp only [supportedMethods, List.mem_map, List.mem_cons, List.not_mem_nil,
    or_false] at h
  obtain ⟨m, hm, hx⟩ := h
  rcases hm with h1 | h1 | h1 | h1 | h1 <;> subst h1
  · exact ⟨_, by simp only [buildOutboundRequest]; rw [← hx, if_pos rfl]⟩
  · exact ⟨_, by
      simp only [buildOutboundRequest]
      rw [← hx, if_neg (by decide), if_pos (Or.inl rfl)]⟩
  · exact ⟨_, by
      simp only [buildOutboundRequest]
      rw [← hx, if_neg (by decide), if_pos (Or.inr (Or.inl rfl))]⟩
  · exact ⟨_, by
      simp only [buildOutboundRequest]
      rw [← hx, if_neg (by decide), if_pos (Or.inr (Or.inr rfl))]⟩
  · exact ⟨_, by
      simp only [buildOutboundRequest]
      rw [← hx, if_neg (by decide), if_neg (by decide), if_pos rfl]⟩

/-- C2: the dispatch loop makes at most `retry_attempts + 1` upstream
calls; a response with status < 500 at any attempt is returned at once with
a single call from that point; the inter-attempt delays are exactly
`2 ^ attempt` (doubling); on the spec's example (`retry_attempts = 2`,
upstream 500, 500, 200) execution succeeds after exactly 3 calls with
delays 1 and 2; and an upstream whose every attempt times out is reported
as the distinct timeout error kind (HTTP 408), not a generic failure, after
`retry_attempts + 1` calls. -/
theorem executor_retry_policy :
    (∀ up retry, (make_api_call up retry).2.1 ≤ retry + 1) ∧
      (∀ up attempt remaining s b, up attempt = .response s b → s < 500 →
        makeApiCallGo up attempt remaining = (.response s b, 1, [])) ∧
      (∀ up retry,
        (make_api_call up retry).2.2 =
          (List.range ((make_api_call up retry).2.1 - 1)).map (fun i => 2 ^ i)) ∧
      (execute_service_call demoCipher svcRetry [] upFlaky =
          (⟨true, some (.obj []), none, 200⟩, 3) ∧
        (make_api_call upFlaky 2).2.2 = [1, 2]) ∧
      (∀ c svc params up, upperAscii svc.http_method ∈ supportedMethods →
        (∀ i, up i = .raised true) →
        execute_service_call c svc params up =
          (⟨false, none, some .timeout, 408⟩, svc.retry_attempts + 1)) := by
  refine ⟨fun up retry => makeApiCallGo_count_le up retry 0,
    fun up attempt remaining s b h hs => makeApiCallGo_success up h hs remaining,
    fun up retry => by simpa using makeApiCallGo_delays up retry 0,
    ⟨rfl, rfl⟩, ?_⟩
  intro c svc params up hm hup
  obtain ⟨r, hr⟩ := buildOutboundRequest_isSome_of_supported svc
    (prepare_request_data svc params) (prepare_headers c svc) hm
  have hall := makeApiCallGo_all_raised up true hup svc.retry_attempts 0
  rcases hmk : makeApiCallGo up 0 svc.retry_attempts with ⟨res, n, ds⟩
  rw [hmk] at hall
  simp only at hall
  obtain ⟨hres, hn⟩ := hall
  subst hres
  subst hn
  simp only [execute_service_call, make_api_call]
  rw [hr, hmk]

/-- C2 witness: a sub-500 response is returned at once, and an upstream
that always times out yields the distinct timeout error after
`retry_attempts + 1` calls. -/
theorem executor_retry_policy_witness :
    makeApiCallGo upFlaky 2 1 = (.response 200 (.obj []), 1, []) ∧
      execute_service_call demoCipher baseService [] upTimeout =
        (⟨false, none, some .timeout, 408⟩, 4) :=
  ⟨executor_retry_policy.2.1 upFlaky 2 1 200 (.obj []) rfl (by decide),
    executor_retry_policy.2.2.2.2 demoCipher baseService [] upTimeout
      (by decide) (fun _ => rfl)⟩

/-- C1: when some root variable of the request template is absent from the
user parameters, `execute_service` returns the structured validation error
carrying exactly the missing names (the absent variable among them) and
makes zero upstream calls. -/
theorem execute_missing_params_fails_fast (c : FernetCipher) (svc : Service)
    (params : List (List Char × Json)) (up : Upstream) (v : List Char)
    (h1 : v ∈ extract_template_variables (reqTemplate svc))
    (h2 : v ∉ params.map Prod.fst) :
    execute_service c svc params up =
        (.validationError (missingParams svc params), 0) ∧
      v ∈ missingParams svc params ∧
      ∀ w ∈ missingParams svc params,
        w ∈ extract_template_variables (reqTemplate svc) ∧
          w ∉ params.map Prod.fst := by
  have hv : v ∈ missingParams svc params := by
    rw [missingParams, List.mem_dedup, List.mem_filter]
    exact ⟨h1, by simp [h2]⟩
  have hne : missingParams svc params ≠ [] := by
    intro hnil
    rw [hnil] at hv
    exact absurd hv (List.not_mem_nil v)
  refine ⟨?_, hv, ?_⟩
  · simp only [execute_service, validate_service_parameters]
    rw [if_neg hne]
    simp
  · intro w hw
    rw [missingParams, List.mem_dedup, List.mem_filter] at hw
    refine ⟨hw.1, ?_⟩
    have h3 := hw.2
    simp only [List.elem_eq_mem, Bool.not_eq_true', decide_eq_false_iff_not,
      decide_eq_true_eq] at h3
    exact h3

/-- C1 witness: the spec's ride example — supplying only `pickup_lat`
yields the validation error naming `pickup_lng` with zero upstream calls. -/
theorem execute_missing_params_witness :
    execute_service demoCipher svcRide [("pickup_lat".toList, Json.num 40)] upFlaky =
        (.validationError (missingParams svcRide [("pickup_lat".toList, Json.num 40)]), 0) ∧
      "pickup_lng".toList ∈ missingParams svcRide [("pickup_lat".toList, Json.num 40)] ∧
      ∀ w ∈ missingParams svcRide [("pickup_lat".toList, Json.num 40)],
        w ∈ extract_template_variables (reqTemplate svcRide) ∧
          w ∉ [("pickup_lat".toList, Json.num 40)].map Prod.fst :=
  execute_missing_params_fails_fast demoCipher svcRide
    [("pickup_lat".toList, Json.num 40)] upFlaky "pickup_lng".toList
    (by decide) (by decide)

/-- C6 counterexample: for a DELETE descriptor the dispatch sends the
rendered data neither as a JSON body nor as query parameters (the code
issues `client.delete(url, headers=headers)` with no body), refuting the
claim that every non-GET method sends the rendered body as JSON. -/
theorem delete_sends_no_body :
    (buildOutboundRequest svcDelete
        (.obj [("reason".toList, .str "cleanup".toList)]) .null).map
        OutboundRequest.jsonBody = some none ∧
      (buildOutboundRequest svcDelete
        (.obj [("reason".toList, .str "cleanup".toList)]) .null).map
        OutboundRequest.queryParams = some none :=
  ⟨rfl, rfl⟩

/-- C6 (amended): the dispatch issues the request with the descriptor's
(uppercased) method; GET sends the rendered data in the query string,
POST/PUT/PATCH send it as the JSON body, and DELETE sends only the
headers. -/
theorem method_dispatch (svc : Service) (data headers : Json) :
    (upperAscii svc.http_method = "GET".toList →
      buildOutboundRequest svc data headers =
        some ⟨upperAscii svc.http_method, fullApiUrl svc, some data, none, headers⟩) ∧
      (upperAscii svc.http_method = "POST".toList ∨
          upperAscii svc.http_method = "PUT".toList ∨
          upperAscii svc.http_method = "PATCH".toList →
        buildOutboundRequest svc data headers =
          some ⟨upperAscii svc.http_method, fullApiUrl svc, none, some data, headers⟩) ∧
      (upperAscii svc.http_method = "DELETE".toList →
        buildOutboundRequest svc data headers =
          some ⟨upperAscii svc.http_method, fullApiUrl svc, none, none, headers⟩) := by
  refine ⟨?_, ?_, ?_⟩
  · intro h
    simp only [buildOutboundRequest]
    rw [h, if_pos rfl]
  · intro h
    simp only [buildOutboundRequest]
    rcases h with h | h | h <;>
      rw [h, if_neg (by decide), if_pos (by decide)]
  · intro h
    simp only [buildOutboundRequest]
    rw [h, if_neg (by decide), if_neg (by decide), if_pos rfl]

/-- C6 witness: the three branches at concrete methods. -/
theorem method_dispatch_witness :
    buildOutboundRequest { baseService with http_method := "get".toList }
        (.obj []) .null =
      some ⟨"GET".toList,
        fullApiUrl { baseService with http_method := "get".toList },
        some (.obj []), none, .null⟩ ∧
    buildOutboundRequest baseService (.obj []) .null =
      some ⟨"POST".toList, fullApiUrl baseService, none, some (.obj []), .null⟩ ∧
    buildOutboundRequest svcDelete (.obj []) .null =
      some ⟨"DELETE".toList, fullApiUrl svcDelete, none, none, .null⟩ :=
  ⟨(method_dispatch { baseService with http_method := "get".toList }
      (.obj []) .null).1 (by decide),
   (method_dispatch baseService (.obj []) .null).2.1 (Or.inl (by decide)),
   (method_dispatch svcDelete (.obj []) .null).2.2 (by decide)⟩

/-- C7: required-parameter validation derives only from the request
template — a variable not among the request template's root variables
(for instance one appearing only in the headers template) is never
reported missing, for any parameter map, and the missing-parameter
computation is invariant under changing the headers template. -/
theorem header_only_vars_never_required (svc : Service)
    (params : List (List Char × Json)) (v : List Char)
    (h : v ∉ extract_template_variables (reqTemplate svc)) :
    v ∉ missingParams svc params ∧
      ∀ h1 h2 : Json,
        missingParams { svc with headers_template := h1 } params =
          missingParams { svc with headers_template := h2 } params := by
  constructor
  · intro hv
    rw [missingParams, List.mem_dedup, List.mem_filter] at hv
    exact h hv.1
  · intro h1 h2
    rfl

/-- C7 witness: a placeholder living only in the headers template is not
reported missing even with an empty parameter map. -/
theorem header_only_vars_witness :
    "session_token".toList ∉ missingParams svcHeaderOnly [] ∧
      ∀ h1 h2 : Json,
        missingParams { svcHeaderOnly with headers_template := h1 } [] =
          missingParams { svcHeaderOnly with headers_template := h2 } [] :=
  header_only_vars_never_required svcHeaderOnly [] "session_token".toList
    (by decide)

/-- C8 counterexample: for user id 0 the connect/connect/disconnect
sequence leaves the connection count at 2, not 1 — `disconnect` guards its
cleanup with `if user_id:`, and Python truthiness treats the id 0 like
`None`, skipping the removal entirely.  This refutes the claim as stated
for every user. -/
theorem disconnect_zero_uid_skips_cleanup :
    ConnectionManager.is_user_online
        (ConnectionManager.disconnect
          (ConnectionManager.connect
            (ConnectionManager.connect emptyConnState 0 1) 0 2) 1) 0 = true ∧
      ConnectionManager.get_user_connection_count
        (ConnectionManager.disconnect
          (ConnectionManager.connect
            (ConnectionManager.connect emptyConnState 0 1) 0 2) 1) 0 ≠ 1 :=
  ⟨rfl, by decide⟩

/-- C8 (amended): for every user with a non-zero id and distinct channels
`c1 ≠ c2`, after connect(u,c1), connect(u,c2), disconnect(c1) the user is
online with exactly one connection (precisely `c2`), and after the further
disconnect(c2) the user is offline. -/
theorem registry_connect_disconnect_lifecycle (u c1 c2 : Nat)
    (hu : u ≠ 0) (hc : c1 ≠ c2) :
    ConnectionManager.is_user_online
        (ConnectionManager.disconnect
          (ConnectionManager.connect
            (ConnectionManager.connect emptyConnState u c1) u c2) c1) u = true ∧
      ConnectionManager.get_user_connection_count
        (ConnectionManager.disconnect
          (ConnectionManager.connect
            (ConnectionManager.connect emptyConnState u c1) u c2) c1) u = 1 ∧
      alistGet (ConnectionManager.disconnect
          (ConnectionManager.connect
            (ConnectionManager.connect emptyConnState u c1) u c2) c1).active_connections
        u = some [c2] ∧
      ConnectionManager.is_user_online
        (ConnectionManager.disconnect
          (ConnectionManager.disconnect
            (ConnectionManager.connect
              (ConnectionManager.connect emptyConnState u c1) u c2) c1) c2) u = false := by
  simp [ConnectionManager.connect, ConnectionManager.disconnect,
    ConnectionManager.is_user_online, ConnectionManager.get_user_connection_count,
    emptyConnState, alistGet, alistSet, alistRemove, removeFirst, hu, hc,
    Ne.symm hc]

/-- C8 witness: the lifecycle at user 7 with channels 1 and 2. -/
theorem registry_lifecycle_witness :
    ConnectionManager.is_user_online
        (ConnectionManager.disconnect
          (ConnectionManager.connect
            (ConnectionManager.connect emptyConnState 7 1) 7 2) 1) 7 = true ∧
      ConnectionManager.get_user_connection_count
        (ConnectionManager.disconnect
          (ConnectionManager.connect
            (ConnectionManager.connect emptyConnState 7 1) 7 2) 1) 7 = 1 ∧
      alistGet (ConnectionManager.disconnect
          (ConnectionManager.connect
            (ConnectionManager.connect emptyConnState 7 1) 7 2) 1).active_connections
        7 = some [2] ∧
      ConnectionManager.is_user_online
        (ConnectionManager.disconnect
          (ConnectionManager.disconnect
            (ConnectionManager.connect
              (ConnectionManager.connect emptyConnState 7 1) 7 2) 1) 2) 7 = false :=
  registry_connect_disconnect_lifecycle 7 1 2 (by decide) (by decide)

/-- C9: the REST `MessageSend` schema guarantees every persisted content is
1–2000 characters and non-blank after trimming, but the WebSocket
`send_message` handler persists `content.strip()` with no such check: the
whitespace-only frame content `" "` (with a valid, active receiver) is
persisted as the empty string, violating the invariant the spec states for
every persisted `ChatMessage`. -/
theorem ws_send_message_skips_content_validation :
    (∀ content out, messageSendContent content = some out →
        chatContentValid out = true) ∧
      wsSendMessageContent true 2 " ".toList = some [] ∧
      chatContentValid [] = false := by
  refine ⟨?_, by decide, by decide⟩
  intro content out h
  rw [messageSendContent] at h
  split at h
  · rename_i hlen
    split at h
    · exact absurd h (by simp)
    · rename_i hblank
      have hout : pyStrip content = out := Option.some.inj h
      subst hout
      simp only [chatContentValid, Bool.and_eq_true, decide_eq_true_eq]
      refine ⟨⟨?_, ?_⟩, ?_⟩
      · have := List.length_pos.mpr hblank
        omega
      · exact le_trans (pyStrip_length_le content) hlen.2
      · rw [pyStrip_idem]
        cases hps : pyStrip content with
        | nil => exact absurd hps hblank
        | cons a t => rfl
  · exact absurd h (by simp)

/-- C9 witness: the REST validator's output on `" hi "` satisfies the
invariant. -/
theorem rest_send_content_witness :
    chatContentValid "hi".toList = true :=
  ws_send_message_skips_content_validation.1 " hi ".toList "hi".toList (by decide)

/-- C10: `mark_messages_as_read` changes exactly the messages that are in
the given id list, addressed to the calling user, and currently unread —
those get `is_read := true` and keep every other field; any message with a
different receiver, an id outside the list, or already read is returned
entirely unchanged. -/
theorem mark_read_exact_frame (user_id : Nat) (ids : List Nat)
    (db : List ChatMessageRec) :
    (mark_messages_as_read user_id ids db).1.length = db.length ∧
      ∀ (i : Nat) (m : ChatMessageRec), db[i]? = some m →
        ∃ m', (mark_messages_as_read user_id ids db).1[i]? = some m' ∧
          (m'.id = m.id ∧ m'.sender_id = m.sender_id ∧
            m'.receiver_id = m.receiver_id ∧ m'.content = m.content ∧
            m'.timestamp = m.timestamp) ∧
          (m.id ∉ ids → m' = m) ∧
          (m.receiver_id ≠ user_id → m' = m) ∧
          (m.is_read = true → m' = m) ∧
          (m.id ∈ ids → m.receiver_id = user_id → m.is_read = false →
            m' = { m with is_read := true }) := by
  constructor
  · simp [mark_messages_as_read]
  · intro i m hm
    refine ⟨if markCond user_id ids m then { m with is_read := true } else m,
      by simp [mark_messages_as_read, List.getElem?_map, hm], ?_⟩
    by_cases hcond : markCond user_id ids m = true
    · have hparts := hcond
      simp only [markCond, Bool.and_eq_true, beq_iff_eq, Bool.not_eq_true',
        List.elem_eq_mem, decide_eq_true_eq] at hparts
      obtain ⟨⟨hid, hrecv⟩, hread⟩ := hparts
      rw [if_pos hcond]
      exact ⟨⟨rfl, rfl, rfl, rfl, rfl⟩,
        fun hno => absurd hid hno,
        fun hno => absurd hrecv hno,
        fun hr => absurd hr (by simp [hread]),
        fun _ _ _ => rfl⟩
    · rw [if_neg hcond]
      refine ⟨⟨rfl, rfl, rfl, rfl, rfl⟩, fun _ => rfl, fun _ => rfl,
        fun _ => rfl, ?_⟩
      intro hid hrecv hread
      exact absurd (by simp [markCond, hid, hrecv, hread]) hcond

/-- C10 witness: in a two-row database, the unread message with id 10
addressed to user 2 is flipped to read and keeps all other fields. -/
theorem mark_read_frame_witness :
    ∃ m', (mark_messages_as_read 2 [10]
          [⟨10, 1, 2, "hi".toList, 5, false⟩,
           ⟨11, 1, 3, "yo".toList, 6, false⟩]).1[0]? = some m' ∧
        (m'.id = (10 : Nat) ∧ m'.sender_id = 1 ∧ m'.receiver_id = 2 ∧
          m'.content = "hi".toList ∧ m'.timestamp = 5) ∧
        ((10 : Nat) ∉ ([10] : List Nat) → m' = ⟨10, 1, 2, "hi".toList, 5, false⟩) ∧
        ((2 : Nat) ≠ 2 → m' = ⟨10, 1, 2, "hi".toList, 5, false⟩) ∧
        (false = true → m' = ⟨10, 1, 2, "hi".toList, 5, false⟩) ∧
        ((10 : Nat) ∈ ([10] : List Nat) → (2 : Nat) = 2 → false = false →
          m' = ⟨10, 1, 2, "hi".toList, 5, true⟩) :=
  (mark_read_exact_frame 2 [10]
      [⟨10, 1, 2, "hi".toList, 5, false⟩,
       ⟨11, 1, 3, "yo".toList, 6, false⟩]).2 0
    ⟨10, 1, 2, "hi".toList, 5, false⟩ rfl
